import Mathlib

/-
Verification of the temporal-alignment and multi-source-merge logic of
`openmeteo_client.py` (class `OpenMeteoClient`).

The external libraries used by the source (the `dateutil` timestamp parser,
the Python `float(...)` conversion of strings, and the `math` float routines)
are modelled as parameters collected in `Prims`; all control flow of the
source is embedded concretely.  Python exceptions raised by list indexing
are modelled with `Except Unit`; JSON scalar values appearing in hourly
variable arrays are modelled by `JVal` (with `JVal.null` playing the Python
`None`).  The float arithmetic of `_uv_to_speed_dir` (lines 77-78) is
additionally modelled over the real numbers in `uv_to_speed_dir_math`.
-/

namespace OpenMeteo

/-- A JSON scalar value as it appears inside an hourly variable array:
`null`, a number, or a string. -/
inductive JVal : Type where
  | null : JVal
  | num : ℚ → JVal
  | str : String → JVal
deriving DecidableEq, Repr

/-- External primitives used by the source.
`isoparse s` models `dtparser.isoparse(s)` followed by the UTC
normalisation of lines 57-58 / 66-67: `some t` is the parsed instant in
seconds (so that `(dt - t_req).total_seconds()` is a difference of these
numbers), and `none` models `isoparse` raising.
`strFloat` models `float(<string>)` (`some q` on success, `none` when it
raises); `hypot` and `bearingF` model the float computations
`math.hypot(uu, vv)` and `(math.degrees(math.atan2(uu, vv)) + 360.0) % 360.0`. -/
structure Prims : Type where
  isoparse : String → Option ℚ
  strFloat : String → Option ℚ
  hypot : ℚ → ℚ → ℚ
  bearingF : ℚ → ℚ → ℚ

/-- Conversion `float(x)` on a JSON scalar: numbers convert to themselves, strings via
`strFloat`, `null` (Python `None`) raises, i.e. fails. -/
def toFloat? (P : Prims) : JVal → Option ℚ
  | JVal.null => none
  | JVal.num q => some q
  | JVal.str s => P.strFloat s

/-- Method `OpenMeteoClient._uv_to_speed_dir` (lines 72-79): convert both inputs
with `float`; on failure return `(None, None)`; otherwise return the
hypotenuse and the normalised bearing. -/
def uv_to_speed_dir (P : Prims) (u v : JVal) : JVal × JVal :=
  match toFloat? P u, toFloat? P v with
  | some uu, some vv => (JVal.num (P.hypot uu vv), JVal.num (P.bearingF uu vv))
  | _, _ => (JVal.null, JVal.null)

/-- Python float `%` for a positive modulus (floor mod), over ℝ. -/
noncomputable def pymod (x y : ℝ) : ℝ := x - y * (Int.floor (x / y) : ℝ)

/-- Conversion `math.degrees`. -/
noncomputable def degreesR (x : ℝ) : ℝ := x * 180 / Real.pi

/-- Function `math.atan2 y x`: the angle of the point `(x, y)`, in `(-pi, pi]`. -/
noncomputable def atan2R (y x : ℝ) : ℝ := Complex.arg (Complex.mk x y)

/-- Line 77, `math.hypot(uu, vv)`, over ℝ. -/
noncomputable def uv_speed (u v : ℝ) : ℝ := Real.sqrt (u ^ 2 + v ^ 2)

/-- Line 78, `(math.degrees(math.atan2(uu, vv)) + 360.0) % 360.0`, over ℝ. -/
noncomputable def uv_bearing (u v : ℝ) : ℝ := pymod (degreesR (atan2R u v) + 360) 360

/-- Lines 77-78 of `_uv_to_speed_dir` on successfully converted inputs,
with the float arithmetic modelled over the real numbers. -/
noncomputable def uv_to_speed_dir_math (u v : ℝ) : ℝ × ℝ := (uv_speed u v, uv_bearing u v)

/-- The entry of `l` at position `k`, parsed: `some d` when position `k`
exists and parses to the instant `d`. -/
def pAt (parse : String → Option ℚ) (l : List String) (k : Nat) : Option ℚ :=
  (l.get? k).bind parse

/-- The loop of lines 60-69 of `_pick_index`: scan the remaining entries,
carrying the enumeration counter `i` and the running best `(bi, bd)`;
an entry that fails to parse is skipped, and the best is replaced only on
a strictly smaller absolute difference to `tq`. -/
def pickLoop (parse : String → Option ℚ) (tq : ℚ) :
    List String → Nat → Nat → Option ℚ → Nat × Option ℚ
  | [], _, bi, bd => (bi, bd)
  | t :: rest, i, bi, bd =>
    match parse t with
    | none => pickLoop parse tq rest (i + 1) bi bd
    | some dt =>
      match bd with
      | none => pickLoop parse tq rest (i + 1) i (some dt)
      | some b =>
        if |dt - tq| < |b - tq| then pickLoop parse tq rest (i + 1) i (some dt)
        else pickLoop parse tq rest (i + 1) bi bd

/-- Lines 51-54: `isoparse(requested_iso) if requested_iso else None`,
with a raising parse caught to `None`.  The empty string is falsy in
Python, hence also yields `none`. -/
def parseReq (parse : String → Option ℚ) : Option String → Option ℚ
  | none => none
  | some s => if s = "" then none else parse s

/-- Method `OpenMeteoClient._pick_index` (lines 48-70). -/
def pick_index (parse : String → Option ℚ) (times : List String)
    (requested_iso : Option String) : Nat :=
  if times = [] then 0
  else
    match parseReq parse requested_iso with
    | none => 0
    | some tq => (pickLoop parse tq times 0 0 none).1

/-- One per-source hourly document, as `extract_values` sees it after
`payload.get(..., {}) or {}` and `.get("hourly", {})`: the `"time"` axis
(`.get("time", [])`, so a missing axis is the empty list) and the named
variable arrays.  A missing source document, a missing `"hourly"` object
and a missing `"time"` key are all the empty-axis state. -/
structure Hourly : Type where
  time : List String
  vars : List (String × List JVal)
deriving DecidableEq, Repr

/-- The payload built by `fetch_point` (lines 119-125), restricted to the
keys `extract_values` reads. -/
structure Payload : Type where
  requested_iso : Option String
  forecast : Hourly
  marine : Hourly
  ocean : Hourly
deriving DecidableEq, Repr

/-- The output mapping `out` of `extract_values`: all canonical keys.
`iso_time` is `None` or a string taken from a time axis. -/
structure Record : Type where
  iso_time : Option String
  windSpeed : JVal
  windDirection : JVal
  waveHeight : JVal
  waveDirection : JVal
  swellHeight : JVal
  swellDirection : JVal
  windWaveHeight : JVal
  windWaveDirection : JVal
  currentSpeed : JVal
  currentDirection : JVal
deriving DecidableEq, Repr

/-- Dictionary lookup on the variable arrays (`k in h` / `h[k]` / `h.get(k)`). -/
def lookupVar : List (String × List JVal) → String → Option (List JVal)
  | [], _ => none
  | (k2, arr) :: rest, k => if k2 = k then some arr else lookupVar rest k

/-- Python list indexing `l[i]` for `i ≥ 0`: raises `IndexError` when out
of range. -/
def pyIndex {α : Type} (l : List α) (i : Nat) : Except Unit α :=
  match l.get? i with
  | some x => Except.ok x
  | none => Except.error ()

/-- The pattern `h.get(k, [None])[i] if k in h else None` of lines
137-138, 169-170 and 176-177: `None` when the key is absent, otherwise a
raw (raising) index into the array. -/
def readField (vars : List (String × List JVal)) (k : String) (i : Nat) :
    Except Unit JVal :=
  match lookupVar vars k with
  | none => Except.ok JVal.null
  | some arr => pyIndex arr i

/-- The local helper `get` of lines 149-151: like `readField` but with the
`IndexError` caught and turned into `None`. -/
def safeGet (vars : List (String × List JVal)) (k : String) (i : Nat) : JVal :=
  match lookupVar vars k with
  | none => JVal.null
  | some arr => (arr.get? i).getD JVal.null

/-- The field at key `k` is unavailable at index `i`: key absent, or the
array is too short. -/
def missingAt (vars : List (String × List JVal)) (k : String) (i : Nat) : Bool :=
  match lookupVar vars k with
  | none => true
  | some arr => decide (arr.length ≤ i)

/-- Python `a or t` for an optional string `a` and a string `t`:
`None` and the empty string are falsy. -/
def pyOrVal (a : Option String) (t : String) : Option String :=
  match a with
  | none => some t
  | some s => if s = "" then some t else some s

/-- Python `a or b` for two optional strings (line 128). -/
def orStr (a b : Option String) : Option String :=
  match a with
  | none => b
  | some s => if s = "" then b else some s

/-- Assignment `out["iso_time"] or times[i]` (lines 136, 148, 167): the truthiness
test short-circuits, and the index raises when out of range. -/
def orIdx (a : Option String) (l : List String) (i : Nat) :
    Except Unit (Option String) :=
  match a with
  | none => Except.map some (pyIndex l i)
  | some s => if s = "" then Except.map some (pyIndex l i) else Except.ok (some s)

/-- The time-axis entry a source contributes: the entry at the picked
index, or `none` for an empty axis. -/
def selTime (P : Prims) (hr : Hourly) (req : Option String) : Option String :=
  if hr.time = [] then none
  else hr.time.get? (pick_index P.isoparse hr.time req)

/-- Lines 137-138: the two wind field reads, in order. -/
def windFields (vars : List (String × List JVal)) (i : Nat) :
    Except Unit (JVal × JVal) := do
  let ws ← readField vars "windspeed_10m" i
  let wd ← readField vars "winddirection_10m" i
  Except.ok (ws, wd)

/-- Lines 131-141: the forecast/wind part of `extract_values`. -/
def windBlock (P : Prims) (fc : Hourly) (req iso0 : Option String) :
    Except Unit (Option String × JVal × JVal) :=
  if fc.time = [] then Except.ok (iso0, JVal.null, JVal.null)
  else do
    let i := pick_index P.isoparse fc.time req
    let iso1 ← orIdx iso0 fc.time i
    let fd ← windFields fc.vars i
    Except.ok (iso1, fd.1, fd.2)

/-- Lines 152-157: the six wave field reads through the catching helper. -/
def marineFields (vars : List (String × List JVal)) (i : Nat) :
    JVal × JVal × JVal × JVal × JVal × JVal :=
  (safeGet vars "wave_height" i, safeGet vars "wave_direction" i,
   safeGet vars "swell_wave_height" i, safeGet vars "swell_wave_direction" i,
   safeGet vars "wind_wave_height" i, safeGet vars "wind_wave_direction" i)

/-- Lines 143-160: the marine/wave part of `extract_values`. -/
def marineBlock (P : Prims) (ma : Hourly) (req iso0 : Option String) :
    Except Unit (Option String × (JVal × JVal × JVal × JVal × JVal × JVal)) :=
  if ma.time = [] then
    Except.ok (iso0, (JVal.null, JVal.null, JVal.null, JVal.null, JVal.null, JVal.null))
  else do
    let i := pick_index P.isoparse ma.time req
    let iso1 ← orIdx iso0 ma.time i
    Except.ok (iso1, marineFields ma.vars i)

/-- Lines 173-175: the legacy `"current"` alias, tried only while the
speed is still `None`, with the `IndexError` swallowed by `pass`. -/
def currentAlias (vars : List (String × List JVal)) (i : Nat) (speed : JVal) : JVal :=
  if speed = JVal.null then
    match lookupVar vars "current" with
    | some arr => (arr.get? i).getD speed
    | none => speed
  else speed

/-- Lines 169-184: the current speed/direction resolution, including the
u/v fallback that fills only still-missing fields. -/
def oceanFields (P : Prims) (vars : List (String × List JVal)) (i : Nat) :
    Except Unit (JVal × JVal) := do
  let speed ← readField vars "current_speed" i
  let direction ← readField vars "current_direction" i
  if speed = JVal.null ∨ direction = JVal.null then do
    let speed := currentAlias vars i speed
    let u ← readField vars "current_u" i
    let v ← readField vars "current_v" i
    if u ≠ JVal.null ∧ v ≠ JVal.null then
      Except.ok ((if speed = JVal.null then (uv_to_speed_dir P u v).1 else speed),
        (if direction = JVal.null then (uv_to_speed_dir P u v).2 else direction))
    else Except.ok (speed, direction)
  else Except.ok (speed, direction)

/-- Lines 162-187: the ocean/current part of `extract_values`. -/
def oceanBlock (P : Prims) (oc : Hourly) (req iso0 : Option String) :
    Except Unit (Option String × JVal × JVal) :=
  if oc.time = [] then Except.ok (iso0, JVal.null, JVal.null)
  else do
    let i := pick_index P.isoparse oc.time req
    let iso1 ← orIdx iso0 oc.time i
    let fd ← oceanFields P oc.vars i
    Except.ok (iso1, fd.1, fd.2)

/-- Method `OpenMeteoClient.extract_values` (lines 127-189). -/
def extract_values (P : Prims) (payload : Payload) (requested0 : Option String) :
    Except Unit Record := do
  let req := orStr requested0 payload.requested_iso
  let w ← windBlock P payload.forecast req none
  let m ← marineBlock P payload.marine req w.1
  let oc ← oceanBlock P payload.ocean req m.1
  Except.ok ⟨oc.1, w.2.1, w.2.2, m.2.1, m.2.2.1, m.2.2.2.1, m.2.2.2.2.1,
    m.2.2.2.2.2.1, m.2.2.2.2.2.2, oc.2.1, oc.2.2⟩

/-- A tiny concrete timestamp parser used to instantiate the universally
quantified theorems on concrete inputs. -/
def parseW : String → Option ℚ := fun s =>
  if s = "T0" then some 0
  else if s = "T1" then some 3600
  else if s = "T2" then some 7200
  else none

/-- Concrete primitives for instantiations: the string-to-float
conversion always fails, and the float routines are arbitrary constants. -/
def Pw : Prims := ⟨parseW, fun _ => none, fun _ _ => 99, fun _ _ => 45⟩

/-- The empty hourly document. -/
def hEmpty : Hourly := ⟨[], []⟩

/-- Wind source with a time axis and a present but empty
`windspeed_10m` array: the selected index is out of range. -/
def payWindShort : Payload := ⟨none, ⟨["T1"], [("windspeed_10m", [])]⟩, hEmpty, hEmpty⟩

/-- Marine source with a present but empty `wave_height` array. -/
def payWaveShort : Payload := ⟨none, hEmpty, ⟨["T1"], [("wave_height", [])]⟩, hEmpty⟩

/-- Wind source with a time axis and no variable arrays. -/
def payWindMissing : Payload := ⟨none, ⟨["T1"], []⟩, hEmpty, hEmpty⟩

/-- Ocean source with a time axis and no variable arrays. -/
def payOceanMissing : Payload := ⟨none, hEmpty, hEmpty, ⟨["T1"], []⟩⟩

/-- Ocean source where the direct read finds a null speed, the legacy
`"current"` alias supplies `7`, and u/v components are present. -/
def payAliasUV : Payload :=
  ⟨none, hEmpty, hEmpty,
    ⟨["T1"], [("current_direction", [JVal.num 180]), ("current", [JVal.num 7]),
      ("current_u", [JVal.num 3]), ("current_v", [JVal.num 4])]⟩⟩

/-- Ocean source with a present speed, a null direction, and u/v. -/
def paySpeedKept : Payload :=
  ⟨none, hEmpty, hEmpty,
    ⟨["T1"], [("current_speed", [JVal.num 2]), ("current_direction", [JVal.null]),
      ("current_u", [JVal.num 3]), ("current_v", [JVal.num 4])]⟩⟩

/-- Ocean source with no speed variable, a present direction, and u/v. -/
def payDirKept : Payload :=
  ⟨none, hEmpty, hEmpty,
    ⟨["T1"], [("current_direction", [JVal.num 180]),
      ("current_u", [JVal.num 3]), ("current_v", [JVal.num 4])]⟩⟩

/-- Wind axis whose only entry is the empty string, wave axis present:
exercises Python truthiness in the `iso_time` chain. -/
def payEmptyStringTime : Payload := ⟨none, ⟨[""], []⟩, ⟨["T1"], []⟩, hEmpty⟩

/-- Wind axis empty, wave and ocean axes present. -/
def payWaveTime : Payload := ⟨none, hEmpty, ⟨["T1"], []⟩, ⟨["T2"], []⟩⟩

/-- The record `extract_values` produces on `payWaveTime`. -/
def recWaveTime : Record :=
  ⟨some "T1", JVal.null, JVal.null, JVal.null, JVal.null, JVal.null, JVal.null,
    JVal.null, JVal.null, JVal.null, JVal.null⟩

@[simp] theorem pAt_nil (parse : String → Option ℚ) (k : Nat) :
    pAt parse [] k = none := by
  cases k <;> rfl

@[simp] theorem pAt_cons_zero (parse : String → Option ℚ) (t : String) (l : List String) :
    pAt parse (t :: l) 0 = parse t := rfl

@[simp] theorem pAt_cons_succ (parse : String → Option ℚ) (t : String) (l : List String)
    (m : Nat) : pAt parse (t :: l) (m + 1) = pAt parse l m := rfl

theorem pAt_lt_length (parse : String → Option ℚ) (l : List String) (k : Nat) (d : ℚ)
    (h : pAt parse l k = some d) : k < l.length := by
  by_contra hk
  have hget : l.get? k = none := List.get?_eq_none.mpr (Nat.le_of_not_lt hk)
  rw [pAt, hget] at h
  exact Option.noConfusion h

/-- Behaviour of the scan loop started with a current best value `b`:
either no entry improves on `b` and the running best is kept, or the first
entry strictly improving every earlier candidate (and `b`) is selected. -/
theorem pickLoop_some_spec (parse : String → Option ℚ) (tq : ℚ) :
    ∀ (l : List String) (i bi : Nat) (b : ℚ),
      (pickLoop parse tq l i bi (some b) = (bi, some b) ∧
        ∀ m e, pAt parse l m = some e → |b - tq| ≤ |e - tq|) ∨
      (∃ k d, pAt parse l k = some d ∧
        pickLoop parse tq l i bi (some b) = (i + k, some d) ∧
        |d - tq| < |b - tq| ∧
        (∀ m e, pAt parse l m = some e → |d - tq| ≤ |e - tq|) ∧
        (∀ m e, m < k → pAt parse l m = some e → |d - tq| < |e - tq|)) := by
  intro l
  induction l with
  | nil =>
    intro i bi b
    left
    refine ⟨rfl, ?_⟩
    intro m e hm
    simp at hm
  | cons t rest ih =>
    intro i bi b
    cases hpt : parse t with
    | none =>
      have hstep : pickLoop parse tq (t :: rest) i bi (some b) =
          pickLoop parse tq rest (i + 1) bi (some b) := by
        simp [pickLoop, hpt]
      rcases ih (i + 1) bi b with ⟨heq, hmin⟩ | ⟨k, d, hk, heq, hlt, hmin, hstr⟩
      · left
        refine ⟨hstep.trans heq, ?_⟩
        intro m e hm
        cases m with
        | zero => simp [hpt] at hm
        | succ m2 => exact hmin m2 e (by simpa using hm)
      · right
        refine ⟨k + 1, d, by simpa using hk, ?_, hlt, ?_, ?_⟩
        · rw [hstep, heq]
          congr 1
          omega
        · intro m e hm
          cases m with
          | zero => simp [hpt] at hm
          | succ m2 => exact hmin m2 e (by simpa using hm)
        · intro m e hmk hm
          cases m with
          | zero => simp [hpt] at hm
          | succ m2 => exact hstr m2 e (by omega) (by simpa using hm)
    | some dt =>
      by_cases hcmp : |dt - tq| < |b - tq|
      · have hstep : pickLoop parse tq (t :: rest) i bi (some b) =
            pickLoop parse tq rest (i + 1) i (some dt) := by
          simp [pickLoop, hpt, hcmp]
        rcases ih (i + 1) i dt with ⟨heq, hmin⟩ | ⟨k, d, hk, heq, hlt, hmin, hstr⟩
        · right
          refine ⟨0, dt, by simpa using hpt, ?_, hcmp, ?_, ?_⟩
          · rw [hstep, heq]
            simp
          · intro m e hm
            cases m with
            | zero =>
              simp [hpt] at hm
              simp [hm]
            | succ m2 => exact hmin m2 e (by simpa using hm)
          · intro m e hmk hm
            omega
        · right
          refine ⟨k + 1, d, by simpa using hk, ?_, lt_trans hlt hcmp, ?_, ?_⟩
          · rw [hstep, heq]
            congr 1
            omega
          · intro m e hm
            cases m with
            | zero =>
              simp [hpt] at hm
              subst hm
              exact le_of_lt hlt
            | succ m2 => exact hmin m2 e (by simpa using hm)
          · intro m e hmk hm
            cases m with
            | zero =>
              simp [hpt] at hm
              subst hm
              exact hlt
            | succ m2 => exact hstr m2 e (by omega) (by simpa using hm)
      · have hstep : pickLoop parse tq (t :: rest) i bi (some b) =
            pickLoop parse tq rest (i + 1) bi (some b) := by
          simp [pickLoop, hpt, hcmp]
        have hble : |b - tq| ≤ |dt - tq| := le_of_not_lt hcmp
        rcases ih (i + 1) bi b with ⟨heq, hmin⟩ | ⟨k, d, hk, heq, hlt, hmin, hstr⟩
        · left
          refine ⟨hstep.trans heq, ?_⟩
          intro m e hm
          cases m with
          | zero =>
            simp [hpt] at hm
            subst hm
            exact hble
          | succ m2 => exact hmin m2 e (by simpa using hm)
        · right
          refine ⟨k + 1, d, by simpa using hk, ?_, hlt, ?_, ?_⟩
          · rw [hstep, heq]
            congr 1
            omega
          · intro m e hm
            cases m with
            | zero =>
              simp [hpt] at hm
              subst hm
              exact le_trans (le_of_lt hlt) hble
            | succ m2 => exact hmin m2 e (by simpa using hm)
          · intro m e hmk hm
            cases m with
            | zero =>
              simp [hpt] at hm
              subst hm
              exact lt_of_lt_of_le hlt hble
            | succ m2 => exact hstr m2 e (by omega) (by simpa using hm)

/-- Behaviour of the scan loop started with no best value (line 60):
either no entry parses and `(bi, none)` is returned unchanged, or the
first entry realising the minimal absolute difference is selected. -/
theorem pickLoop_start_spec (parse : String → Option ℚ) (tq : ℚ) :
    ∀ (l : List String) (i bi : Nat),
      (pickLoop parse tq l i bi none = (bi, none) ∧
        ∀ m e, pAt parse l m = some e → False) ∨
      (∃ k d, pAt parse l k = some d ∧
        pickLoop parse tq l i bi none = (i + k, some d) ∧
        (∀ m e, pAt parse l m = some e → |d - tq| ≤ |e - tq|) ∧
        (∀ m e, m < k → pAt parse l m = some e → |d - tq| < |e - tq|)) := by
  intro l
  induction l with
  | nil =>
    intro i bi
    left
    refine ⟨rfl, ?_⟩
    intro m e hm
    simp at hm
  | cons t rest ih =>
    intro i bi
    cases hpt : parse t with
    | none =>
      have hstep : pickLoop parse tq (t :: rest) i bi none =
          pickLoop parse tq rest (i + 1) bi none := by
        simp [pickLoop, hpt]
      rcases ih (i + 1) bi with ⟨heq, hnone⟩ | ⟨k, d, hk, heq, hmin, hstr⟩
      · left
        refine ⟨hstep.trans heq, ?_⟩
        intro m e hm
        cases m with
        | zero => simp [hpt] at hm
        | succ m2 => exact hnone m2 e (by simpa using hm)
      · right
        refine ⟨k + 1, d, by simpa using hk, ?_, ?_, ?_⟩
        · rw [hstep, heq]
          congr 1
          omega
        · intro m e hm
          cases m with
          | zero => simp [hpt] at hm
          | succ m2 => exact hmin m2 e (by simpa using hm)
        · intro m e hmk hm
          cases m with
          | zero => simp [hpt] at hm
          | succ m2 => exact hstr m2 e (by omega) (by simpa using hm)
    | some dt =>
      have hstep : pickLoop parse tq (t :: rest) i bi none =
          pickLoop parse tq rest (i + 1) i (some dt) := by
        simp [pickLoop, hpt]
      rcases pickLoop_some_spec parse tq rest (i + 1) i dt with
        ⟨heq, hmin⟩ | ⟨k, d, hk, heq, hlt, hmin, hstr⟩
      · right
        refine ⟨0, dt, by simpa using hpt, ?_, ?_, ?_⟩
        · rw [hstep, heq]
          simp
        · intro m e hm
          cases m with
          | zero =>
            simp [hpt] at hm
            simp [hm]
          | succ m2 => exact hmin m2 e (by simpa using hm)
        · intro m e hmk hm
          omega
      · right
        refine ⟨k + 1, d, by simpa using hk, ?_, ?_, ?_⟩
        · rw [hstep, heq]
          congr 1
          omega
        · intro m e hm
          cases m with
          | zero =>
            simp [hpt] at hm
            subst hm
            exact le_of_lt hlt
          | succ m2 => exact hmin m2 e (by simpa using hm)
        · intro m e hmk hm
          cases m with
          | zero =>
            simp [hpt] at hm
            subst hm
            exact hlt
          | succ m2 => exact hstr m2 e (by omega) (by simpa using hm)

/-- The index returned by `_pick_index` on a non-empty axis is in range. -/
theorem pick_index_lt (parse : String → Option ℚ) (times : List String)
    (req : Option String) (h : times ≠ []) :
    pick_index parse times req < times.length := by
  have hpos : 0 < times.length := List.length_pos.mpr h
  unfold pick_index
  rw [if_neg h]
  cases hr : parseReq parse req with
  | none => exact hpos
  | some tq =>
    show (pickLoop parse tq times 0 0 none).1 < times.length
    rcases pickLoop_start_spec parse tq times 0 0 with ⟨heq, _⟩ | ⟨k, d, hk, heq, _, _⟩
    · rw [heq]
      exact hpos
    · rw [heq]
      simpa using pAt_lt_length parse times k d hk

@[simp] theorem ok_bind {α β : Type} (x : α) (f : α → Except Unit β) :
    (Except.ok x >>= f : Except Unit β) = f x := rfl

@[simp] theorem error_bind {α β : Type} (f : α → Except Unit β) :
    ((Except.error () : Except Unit α) >>= f) = Except.error () := rfl

theorem bind_ok_inv {α β : Type} {x : Except Unit α} {f : α → Except Unit β} {r : β}
    (h : (x >>= f) = Except.ok r) : ∃ a, x = Except.ok a ∧ f a = Except.ok r := by
  cases x with
  | error e =>
    cases e
    simp at h
  | ok a => exact ⟨a, rfl, by simpa using h⟩

theorem safeGet_missing (vars : List (String × List JVal)) (k : String) (i : Nat)
    (h : missingAt vars k i = true) : safeGet vars k i = JVal.null := by
  unfold missingAt at h
  cases hl : lookupVar vars k with
  | none =>
    unfold safeGet
    rw [hl]
  | some arr =>
    rw [hl] at h
    have hlen : arr.length ≤ i := of_decide_eq_true h
    have hget : arr.get? i = none := List.get?_eq_none.mpr hlen
    unfold safeGet
    rw [hl]
    show (arr.get? i).getD JVal.null = JVal.null
    rw [hget]
    rfl

theorem readField_absent (vars : List (String × List JVal)) (k : String) (i : Nat)
    (h : lookupVar vars k = none) : readField vars k i = Except.ok JVal.null := by
  unfold readField
  rw [h]

theorem orIdx_ok_of_get (a : Option String) (l : List String) (i : Nat) (t : String)
    (h : l.get? i = some t) : orIdx a l i = Except.ok (pyOrVal a t) := by
  have h2 : l[i]? = some t := by simpa using h
  cases a with
  | none => simp [orIdx, pyIndex, h2, pyOrVal, Except.map]
  | some s =>
    by_cases hs : s = ""
    · simp [orIdx, hs, pyIndex, h2, pyOrVal, Except.map]
    · simp [orIdx, hs, pyOrVal, Except.map]

theorem pyOrVal_none (t : String) : pyOrVal none t = some t := rfl

theorem pyOrVal_some (s t : String) (hs : s ≠ "") : pyOrVal (some s) t = some s := by
  simp [pyOrVal, hs]

theorem selTime_empty (P : Prims) (hr : Hourly) (req : Option String)
    (h : hr.time = []) : selTime P hr req = none := by
  simp [selTime, h]

theorem selTime_get (P : Prims) (hr : Hourly) (req : Option String) (h : hr.time ≠ []) :
    ∃ t, hr.time.get? (pick_index P.isoparse hr.time req) = some t ∧
      selTime P hr req = some t := by
  have hlt := pick_index_lt P.isoparse hr.time req h
  cases hg : hr.time.get? (pick_index P.isoparse hr.time req) with
  | none =>
    have hle := List.get?_eq_none.mp hg
    omega
  | some t =>
    refine ⟨t, rfl, ?_⟩
    unfold selTime
    rw [if_neg h]
    exact hg

theorem windBlock_empty (P : Prims) (fc : Hourly) (req iso0 : Option String)
    (h : fc.time = []) :
    windBlock P fc req iso0 = Except.ok (iso0, JVal.null, JVal.null) := by
  simp [windBlock, h]

theorem marineBlock_empty (P : Prims) (ma : Hourly) (req iso0 : Option String)
    (h : ma.time = []) :
    marineBlock P ma req iso0 =
      Except.ok (iso0, (JVal.null, JVal.null, JVal.null, JVal.null, JVal.null, JVal.null)) := by
  simp [marineBlock, h]

theorem oceanBlock_empty (P : Prims) (oc : Hourly) (req iso0 : Option String)
    (h : oc.time = []) :
    oceanBlock P oc req iso0 = Except.ok (iso0, JVal.null, JVal.null) := by
  simp [oceanBlock, h]

theorem marineBlock_ok (P : Prims) (ma : Hourly) (req iso0 : Option String)
    (h : ma.time ≠ []) :
    ∃ t, selTime P ma req = some t ∧
      marineBlock P ma req iso0 =
        Except.ok (pyOrVal iso0 t, marineFields ma.vars (pick_index P.isoparse ma.time req)) := by
  obtain ⟨t, hg, hsel⟩ := selTime_get P ma req h
  refine ⟨t, hsel, ?_⟩
  simp [marineBlock, if_neg h,
    orIdx_ok_of_get iso0 ma.time (pick_index P.isoparse ma.time req) t hg]

theorem windBlock_ok_inv (P : Prims) (fc : Hourly) (req iso0 : Option String)
    (w : Option String × JVal × JVal) (h : fc.time ≠ [])
    (heq : windBlock P fc req iso0 = Except.ok w) :
    ∃ t, selTime P fc req = some t ∧ w.1 = pyOrVal iso0 t := by
  obtain ⟨t, hg, hsel⟩ := selTime_get P fc req h
  refine ⟨t, hsel, ?_⟩
  unfold windBlock at heq
  rw [if_neg h] at heq
  simp only [orIdx_ok_of_get iso0 fc.time (pick_index P.isoparse fc.time req) t hg,
    ok_bind] at heq
  rcases bind_ok_inv heq with ⟨fd, hfd, hfin⟩
  injection hfin with h2
  subst h2
  rfl

theorem oceanBlock_ok_inv (P : Prims) (oc : Hourly) (req iso0 : Option String)
    (w : Option String × JVal × JVal) (h : oc.time ≠ [])
    (heq : oceanBlock P oc req iso0 = Except.ok w) :
    ∃ t, selTime P oc req = some t ∧ w.1 = pyOrVal iso0 t := by
  obtain ⟨t, hg, hsel⟩ := selTime_get P oc req h
  refine ⟨t, hsel, ?_⟩
  unfold oceanBlock at heq
  rw [if_neg h] at heq
  simp only [orIdx_ok_of_get iso0 oc.time (pick_index P.isoparse oc.time req) t hg,
    ok_bind] at heq
  rcases bind_ok_inv heq with ⟨fd, hfd, hfin⟩
  injection hfin with h2
  subst h2
  rfl

theorem oceanBlock_fields (P : Prims) (oc : Hourly) (req iso0 : Option String)
    (fd : JVal × JVal) (h : oc.time ≠ [])
    (hfld : oceanFields P oc.vars (pick_index P.isoparse oc.time req) = Except.ok fd) :
    ∃ t, selTime P oc req = some t ∧
      oceanBlock P oc req iso0 = Except.ok (pyOrVal iso0 t, fd.1, fd.2) := by
  obtain ⟨t, hg, hsel⟩ := selTime_get P oc req h
  refine ⟨t, hsel, ?_⟩
  simp [oceanBlock, if_neg h,
    orIdx_ok_of_get iso0 oc.time (pick_index P.isoparse oc.time req) t hg, hfld]

theorem windBlock_missing (P : Prims) (fc : Hourly) (req iso0 : Option String)
    (h : fc.time ≠ []) (h1 : lookupVar fc.vars "windspeed_10m" = none)
    (h2 : lookupVar fc.vars "winddirection_10m" = none) :
    ∃ t, selTime P fc req = some t ∧
      windBlock P fc req iso0 = Except.ok (pyOrVal iso0 t, JVal.null, JVal.null) := by
  obtain ⟨t, hg, hsel⟩ := selTime_get P fc req h
  refine ⟨t, hsel, ?_⟩
  simp [windBlock, if_neg h,
    orIdx_ok_of_get iso0 fc.time (pick_index P.isoparse fc.time req) t hg,
    windFields, readField, h1, h2]

theorem oceanFields_missing (P : Prims) (vars : List (String × List JVal)) (i : Nat)
    (h1 : lookupVar vars "current_speed" = none)
    (h2 : lookupVar vars "current_direction" = none)
    (h3 : lookupVar vars "current" = none)
    (h4 : lookupVar vars "current_u" = none)
    (h5 : lookupVar vars "current_v" = none) :
    oceanFields P vars i = Except.ok (JVal.null, JVal.null) := by
  simp [oceanFields, readField, h1, h2, h3, h4, h5, currentAlias]

theorem extract_eq (P : Prims) (pay : Payload) (req0 : Option String) :
    extract_values P pay req0 =
      (windBlock P pay.forecast (orStr req0 pay.requested_iso) none >>= fun w =>
        marineBlock P pay.marine (orStr req0 pay.requested_iso) w.1 >>= fun m =>
          oceanBlock P pay.ocean (orStr req0 pay.requested_iso) m.1 >>= fun oc =>
            Except.ok ⟨oc.1, w.2.1, w.2.2, m.2.1, m.2.2.1, m.2.2.2.1, m.2.2.2.2.1,
              m.2.2.2.2.2.1, m.2.2.2.2.2.2, oc.2.1, oc.2.2⟩) := rfl

theorem extract_ok_inv {P : Prims} {pay : Payload} {req0 : Option String} {r : Record}
    (h : extract_values P pay req0 = Except.ok r) :
    ∃ w m oc,
      windBlock P pay.forecast (orStr req0 pay.requested_iso) none = Except.ok w ∧
      marineBlock P pay.marine (orStr req0 pay.requested_iso) w.1 = Except.ok m ∧
      oceanBlock P pay.ocean (orStr req0 pay.requested_iso) m.1 = Except.ok oc ∧
      r = ⟨oc.1, w.2.1, w.2.2, m.2.1, m.2.2.1, m.2.2.2.1, m.2.2.2.2.1,
        m.2.2.2.2.2.1, m.2.2.2.2.2.2, oc.2.1, oc.2.2⟩ := by
  rw [extract_eq] at h
  rcases bind_ok_inv h with ⟨w, hw, h2⟩
  rcases bind_ok_inv h2 with ⟨m, hm, h3⟩
  rcases bind_ok_inv h3 with ⟨oc, hoc, h4⟩
  injection h4 with h5
  exact ⟨w, m, oc, hw, hm, hoc, h5.symm⟩

theorem pymod360_bounds (x : ℝ) : 0 ≤ pymod x 360 ∧ pymod x 360 < 360 := by
  have hkey : pymod x 360 = 360 * Int.fract (x / 360) := by
    unfold pymod Int.fract
    ring
  have h0 : (0 : ℝ) ≤ Int.fract (x / 360) := Int.fract_nonneg _
  have h1 : Int.fract (x / 360) < 1 := Int.fract_lt_one _
  constructor
  · rw [hkey]
    nlinarith
  · rw [hkey]
    nlinarith

/-- C1: on a time axis with at least one parseable entry and a parseable
target, `_pick_index` returns an index whose entry parses to an instant
realising the minimum absolute difference to the target, in seconds,
among all parseable entries; every parseable entry at a smaller index has
a strictly larger difference, so on ties the first occurrence wins. -/
theorem C1_pick_index_nearest (parse : String → Option ℚ) (times : List String)
    (tgt : String) (tq : ℚ) (htgt : tgt ≠ "") (hp : parse tgt = some tq)
    (j0 : Nat) (d0 : ℚ) (hj0 : pAt parse times j0 = some d0) :
    ∃ d, pAt parse times (pick_index parse times (some tgt)) = some d ∧
      (∀ m e, pAt parse times m = some e → |d - tq| ≤ |e - tq|) ∧
      (∀ m e, m < pick_index parse times (some tgt) →
        pAt parse times m = some e → |d - tq| < |e - tq|) := by
  have hne : times ≠ [] := by
    intro hcon
    subst hcon
    simp at hj0
  have hpick : pick_index parse times (some tgt) = (pickLoop parse tq times 0 0 none).1 := by
    unfold pick_index
    rw [if_neg hne]
    have hreq : parseReq parse (some tgt) = some tq := by
      simp [parseReq, htgt, hp]
    rw [hreq]
  rcases pickLoop_start_spec parse tq times 0 0 with ⟨heq, hnone⟩ | ⟨k, d, hk, heq, hmin, hstr⟩
  · exact absurd hj0 (fun hc => hnone j0 d0 hc)
  · refine ⟨d, ?_, ?_, ?_⟩
    · rw [hpick, heq]
      simpa using hk
    · intro m e hm
      exact hmin m e hm
    · intro m e hmlt hm
      rw [hpick, heq] at hmlt
      exact hstr m e (by simpa using hmlt) hm

theorem C1_witness :
    ∃ d, pAt parseW ["bad", "T2", "T1"]
        (pick_index parseW ["bad", "T2", "T1"] (some "T0")) = some d ∧
      (∀ m e, pAt parseW ["bad", "T2", "T1"] m = some e → |d - 0| ≤ |e - 0|) ∧
      (∀ m e, m < pick_index parseW ["bad", "T2", "T1"] (some "T0") →
        pAt parseW ["bad", "T2", "T1"] m = some e → |d - 0| < |e - 0|) :=
  C1_pick_index_nearest parseW ["bad", "T2", "T1"] "T0" 0 (by decide) rfl 1 7200 rfl

/-- C6: `_pick_index` returns index 0 on an empty axis, and returns index 0
when the target is null or fails to parse, regardless of the axis. -/
theorem C6_degenerate_zero (parse : String → Option ℚ) (times : List String)
    (req : Option String) :
    (times = [] → pick_index parse times req = 0) ∧
    (req = none → pick_index parse times req = 0) ∧
    (∀ s, req = some s → parse s = none → pick_index parse times req = 0) := by
  refine ⟨?_, ?_, ?_⟩
  · intro h
    simp [pick_index, h]
  · intro h
    subst h
    by_cases ht : times = [] <;> simp [pick_index, ht, parseReq]
  · intro s hreq hps
    subst hreq
    by_cases ht : times = [] <;> by_cases hs : s = "" <;>
      simp [pick_index, ht, parseReq, hs, hps]

theorem C6_witness :
    pick_index parseW [] (some "T0") = 0 ∧
    pick_index parseW ["T1"] none = 0 ∧
    pick_index parseW ["T1"] (some "bad") = 0 :=
  ⟨(C6_degenerate_zero parseW [] (some "T0")).1 rfl,
   (C6_degenerate_zero parseW ["T1"] none).2.1 rfl,
   (C6_degenerate_zero parseW ["T1"] (some "bad")).2.2 "bad" rfl rfl⟩

/-- C7 counterexample: when every entry is unparsable and the target
parses, `_pick_index` returns index 0, and the entry at index 0 is
unparsable — so an unparsable entry can be the selected one, refuting the
claim as stated for arbitrary sequences. -/
theorem C7_counterexample :
    pick_index parseW ["bad"] (some "T0") = 0 ∧
    (["bad"] : List String).get? 0 = some "bad" ∧
    parseW "bad" = none ∧ parseW "T0" = some 0 :=
  ⟨rfl, rfl, rfl, rfl⟩

/-- C7 (amended): provided at least one entry of the sequence parses (and
the target parses), an entry that fails to parse is never the selected
entry: the entry at the returned index parses.  (The call itself never
fails: `pick_index` is total.)  When no entry parses, index 0 is returned
even though its entry is unparsable. -/
theorem C7_skip_unparsable (parse : String → Option ℚ) (times : List String)
    (tgt : String) (tq : ℚ) (htgt : tgt ≠ "") (hp : parse tgt = some tq)
    (j0 : Nat) (d0 : ℚ) (hj0 : pAt parse times j0 = some d0) :
    ∃ s d, times.get? (pick_index parse times (some tgt)) = some s ∧
      parse s = some d := by
  have hne : times ≠ [] := by
    intro hcon
    subst hcon
    simp at hj0
  have hpick : pick_index parse times (some tgt) = (pickLoop parse tq times 0 0 none).1 := by
    unfold pick_index
    rw [if_neg hne]
    have hreq : parseReq parse (some tgt) = some tq := by
      simp [parseReq, htgt, hp]
    rw [hreq]
  rcases pickLoop_start_spec parse tq times 0 0 with ⟨heq, hnone⟩ | ⟨k, d, hk, heq, hmin, hstr⟩
  · exact absurd hj0 (fun hc => hnone j0 d0 hc)
  · have hk2 : pAt parse times (pick_index parse times (some tgt)) = some d := by
      rw [hpick, heq]
      simpa using hk
    unfold pAt at hk2
    cases hg : times.get? (pick_index parse times (some tgt)) with
    | none =>
      rw [hg] at hk2
      exact Option.noConfusion hk2
    | some s =>
      rw [hg] at hk2
      exact ⟨s, d, rfl, by simpa using hk2⟩

theorem C7_witness :
    ∃ s d, (["bad", "T1"] : List String).get?
        (pick_index parseW ["bad", "T1"] (some "T0")) = some s ∧
      parseW s = some d :=
  C7_skip_unparsable parseW ["bad", "T1"] "T0" 0 (by decide) rfl 1 3600 rfl

/-- C10: for a non-empty time axis and an arbitrary target, the index
returned by `_pick_index` is at least 0 and strictly below the axis
length, so indexing the axis with it never goes out of range. -/
theorem C10_index_in_range (parse : String → Option ℚ) (times : List String)
    (req : Option String) (h : times ≠ []) :
    0 ≤ pick_index parse times req ∧ pick_index parse times req < times.length :=
  ⟨Nat.zero_le _, pick_index_lt parse times req h⟩

theorem C10_witness :
    0 ≤ pick_index parseW ["bad"] none ∧
      pick_index parseW ["bad"] none < (["bad"] : List String).length :=
  C10_index_in_range parseW ["bad"] none (by decide)

/-- C8: `_uv_to_speed_dir` returns `(None, None)` whenever either input
fails float conversion; the failure is absorbed, not raised. -/
theorem C8_unconvertible (P : Prims) (u v : JVal)
    (h : toFloat? P u = none ∨ toFloat? P v = none) :
    uv_to_speed_dir P u v = (JVal.null, JVal.null) := by
  cases hu : toFloat? P u <;> cases hv : toFloat? P v <;>
    simp_all [uv_to_speed_dir]

theorem C8_witness :
    uv_to_speed_dir Pw (JVal.str "bad") (JVal.num 4) = (JVal.null, JVal.null) :=
  C8_unconvertible Pw (JVal.str "bad") (JVal.num 4) (Or.inl rfl)

/-- C9: in the real-number model of the float arithmetic of
`_uv_to_speed_dir`, the speed is the Euclidean magnitude of `(u, v)`
(nonnegative, with square `u² + v²`) and the bearing is normalized into
`[0, 360)`; in particular on input `(3, 4)` the speed is `5`. -/
theorem C9_speed_and_bearing :
    (∀ u v : ℝ,
      0 ≤ (uv_to_speed_dir_math u v).1 ∧
      (uv_to_speed_dir_math u v).1 ^ 2 = u ^ 2 + v ^ 2 ∧
      0 ≤ (uv_to_speed_dir_math u v).2 ∧ (uv_to_speed_dir_math u v).2 < 360) ∧
    (uv_to_speed_dir_math 3 4).1 = 5 := by
  constructor
  · intro u v
    refine ⟨Real.sqrt_nonneg _, Real.sq_sqrt (by positivity), ?_, ?_⟩
    · exact (pymod360_bounds (degreesR (atan2R u v) + 360)).1
    · exact (pymod360_bounds (degreesR (atan2R u v) + 360)).2
  · show Real.sqrt ((3 : ℝ) ^ 2 + 4 ^ 2) = 5
    rw [show (3 : ℝ) ^ 2 + 4 ^ 2 = 5 ^ 2 by norm_num]
    exact Real.sqrt_sq (by norm_num)

/-- C5: when all three source documents are empty or absent (all three
fetches failed), `extract_values` raises nothing and returns the record
in which `iso_time` and every other canonical field is null. -/
theorem C5_all_sources_empty (P : Prims) (riso req0 : Option String) :
    extract_values P ⟨riso, hEmpty, hEmpty, hEmpty⟩ req0 =
      Except.ok ⟨none, JVal.null, JVal.null, JVal.null, JVal.null, JVal.null,
        JVal.null, JVal.null, JVal.null, JVal.null, JVal.null⟩ := rfl

/-- C2 counterexample: a wind document with a non-empty time axis and a
present but too-short `windspeed_10m` array makes `extract_values` raise
an `IndexError` instead of yielding null for the field. -/
theorem C2_counterexample :
    extract_values Pw payWindShort none = Except.error () ∧
    payWindShort.forecast.time = ["T1"] ∧
    lookupVar payWindShort.forecast.vars "windspeed_10m" = some [] :=
  ⟨rfl, rfl, rfl⟩

/-- C2 (amended): per-field failures are recovered as nulls only as far
as the code catches them.  In the wave family, a missing key or an
out-of-range index yields null for that field without aborting the
extraction of sibling fields.  In the wind and ocean families a missing
key yields null, but an out-of-range index for a present key raises. -/
theorem C2_per_field_nulls :
    (∀ (P : Prims) (pay : Payload) (req0 : Option String),
      pay.forecast.time = [] → pay.ocean.time = [] → pay.marine.time ≠ [] →
      ∃ r, extract_values P pay req0 = Except.ok r ∧
        (missingAt pay.marine.vars "wave_height"
            (pick_index P.isoparse pay.marine.time (orStr req0 pay.requested_iso)) = true →
          r.waveHeight = JVal.null) ∧
        (missingAt pay.marine.vars "wave_direction"
            (pick_index P.isoparse pay.marine.time (orStr req0 pay.requested_iso)) = true →
          r.waveDirection = JVal.null) ∧
        (missingAt pay.marine.vars "swell_wave_height"
            (pick_index P.isoparse pay.marine.time (orStr req0 pay.requested_iso)) = true →
          r.swellHeight = JVal.null) ∧
        (missingAt pay.marine.vars "swell_wave_direction"
            (pick_index P.isoparse pay.marine.time (orStr req0 pay.requested_iso)) = true →
          r.swellDirection = JVal.null) ∧
        (missingAt pay.marine.vars "wind_wave_height"
            (pick_index P.isoparse pay.marine.time (orStr req0 pay.requested_iso)) = true →
          r.windWaveHeight = JVal.null) ∧
        (missingAt pay.marine.vars "wind_wave_direction"
            (pick_index P.isoparse pay.marine.time (orStr req0 pay.requested_iso)) = true →
          r.windWaveDirection = JVal.null)) ∧
    (∀ (P : Prims) (pay : Payload) (req0 : Option String),
      pay.marine.time = [] → pay.ocean.time = [] → pay.forecast.time ≠ [] →
      lookupVar pay.forecast.vars "windspeed_10m" = none →
      lookupVar pay.forecast.vars "winddirection_10m" = none →
      ∃ r, extract_values P pay req0 = Except.ok r ∧
        r.windSpeed = JVal.null ∧ r.windDirection = JVal.null) ∧
    (∀ (P : Prims) (pay : Payload) (req0 : Option String),
      pay.forecast.time = [] → pay.marine.time = [] → pay.ocean.time ≠ [] →
      lookupVar pay.ocean.vars "current_speed" = none →
      lookupVar pay.ocean.vars "current_direction" = none →
      lookupVar pay.ocean.vars "current" = none →
      lookupVar pay.ocean.vars "current_u" = none →
      lookupVar pay.ocean.vars "current_v" = none →
      ∃ r, extract_values P pay req0 = Except.ok r ∧
        r.currentSpeed = JVal.null ∧ r.currentDirection = JVal.null) := by
  refine ⟨?_, ?_, ?_⟩
  · intro P pay req0 hf hoc hm
    obtain ⟨t, hsel, hmb⟩ :=
      marineBlock_ok P pay.marine (orStr req0 pay.requested_iso) none hm
    refine ⟨⟨pyOrVal none t, JVal.null, JVal.null,
      (marineFields pay.marine.vars
        (pick_index P.isoparse pay.marine.time (orStr req0 pay.requested_iso))).1,
      (marineFields pay.marine.vars
        (pick_index P.isoparse pay.marine.time (orStr req0 pay.requested_iso))).2.1,
      (marineFields pay.marine.vars
        (pick_index P.isoparse pay.marine.time (orStr req0 pay.requested_iso))).2.2.1,
      (marineFields pay.marine.vars
        (pick_index P.isoparse pay.marine.time (orStr req0 pay.requested_iso))).2.2.2.1,
      (marineFields pay.marine.vars
        (pick_index P.isoparse pay.marine.time (orStr req0 pay.requested_iso))).2.2.2.2.1,
      (marineFields pay.marine.vars
        (pick_index P.isoparse pay.marine.time (orStr req0 pay.requested_iso))).2.2.2.2.2,
      JVal.null, JVal.null⟩, ?_, ?_, ?_, ?_, ?_, ?_, ?_⟩
    · rw [extract_eq,
        windBlock_empty P pay.forecast (orStr req0 pay.requested_iso) none hf]
      simp only [ok_bind]
      rw [hmb]
      simp only [ok_bind]
      rw [oceanBlock_empty P pay.ocean (orStr req0 pay.requested_iso) (pyOrVal none t) hoc]
      simp only [ok_bind]
    · intro hmiss
      exact safeGet_missing _ _ _ hmiss
    · intro hmiss
      exact safeGet_missing _ _ _ hmiss
    · intro hmiss
      exact safeGet_missing _ _ _ hmiss
    · intro hmiss
      exact safeGet_missing _ _ _ hmiss
    · intro hmiss
      exact safeGet_missing _ _ _ hmiss
    · intro hmiss
      exact safeGet_missing _ _ _ hmiss
  · intro P pay req0 hm hoc hf h1 h2
    obtain ⟨t, hsel, hwb⟩ :=
      windBlock_missing P pay.forecast (orStr req0 pay.requested_iso) none hf h1 h2
    refine ⟨⟨pyOrVal none t, JVal.null, JVal.null, JVal.null, JVal.null, JVal.null,
      JVal.null, JVal.null, JVal.null, JVal.null, JVal.null⟩, ?_, rfl, rfl⟩
    rw [extract_eq, hwb]
    simp only [ok_bind]
    rw [marineBlock_empty P pay.marine (orStr req0 pay.requested_iso) (pyOrVal none t) hm]
    simp only [ok_bind]
    rw [oceanBlock_empty P pay.ocean (orStr req0 pay.requested_iso) (pyOrVal none t) hoc]
    simp only [ok_bind]
  · intro P pay req0 hf hm hoc h1 h2 h3 h4 h5
    have hof := oceanFields_missing P pay.ocean.vars
      (pick_index P.isoparse pay.ocean.time (orStr req0 pay.requested_iso)) h1 h2 h3 h4 h5
    obtain ⟨t, hsel, hob⟩ :=
      oceanBlock_fields P pay.ocean (orStr req0 pay.requested_iso) none
        (JVal.null, JVal.null) hoc hof
    refine ⟨⟨pyOrVal none t, JVal.null, JVal.null, JVal.null, JVal.null, JVal.null,
      JVal.null, JVal.null, JVal.null, JVal.null, JVal.null⟩, ?_, rfl, rfl⟩
    rw [extract_eq,
      windBlock_empty P pay.forecast (orStr req0 pay.requested_iso) none hf]
    simp only [ok_bind]
    rw [marineBlock_empty P pay.marine (orStr req0 pay.requested_iso) none hm]
    simp only [ok_bind]
    rw [hob]
    simp only [ok_bind]

theorem C2_witness :
    (∃ r, extract_values Pw payWaveShort none = Except.ok r ∧
      r.waveHeight = JVal.null) ∧
    (∃ r, extract_values Pw payWindMissing none = Except.ok r ∧
      r.windSpeed = JVal.null ∧ r.windDirection = JVal.null) ∧
    (∃ r, extract_values Pw payOceanMissing none = Except.ok r ∧
      r.currentSpeed = JVal.null ∧ r.currentDirection = JVal.null) := by
  refine ⟨?_, ?_, ?_⟩
  · obtain ⟨r, h1, h2, _⟩ :=
      C2_per_field_nulls.1 Pw payWaveShort none rfl rfl (by decide)
    exact ⟨r, h1, h2 rfl⟩
  · exact C2_per_field_nulls.2.1 Pw payWindMissing none rfl rfl (by decide) rfl rfl
  · exact C2_per_field_nulls.2.2 Pw payOceanMissing none rfl rfl (by decide)
      rfl rfl rfl rfl rfl

/-- C3 counterexample: with a null primary speed, a present primary
direction, a legacy `"current"` array supplying `7` at the selected
index, and u/v components present, the final `currentSpeed` is the alias
value `7` and not the vector-derived speed (`99` under these primitives)
— so the still-missing field is not always filled with the value derived
by the vector-to-polar conversion. -/
theorem C3_counterexample :
    Except.map Record.currentSpeed (extract_values Pw payAliasUV none) =
      Except.ok (JVal.num 7) ∧
    Except.map Record.currentDirection (extract_values Pw payAliasUV none) =
      Except.ok (JVal.num 180) ∧
    readField payAliasUV.ocean.vars "current_speed" 0 = Except.ok JVal.null ∧
    readField payAliasUV.ocean.vars "current_direction" 0 = Except.ok (JVal.num 180) ∧
    readField payAliasUV.ocean.vars "current_u" 0 = Except.ok (JVal.num 3) ∧
    readField payAliasUV.ocean.vars "current_v" 0 = Except.ok (JVal.num 4) ∧
    (uv_to_speed_dir Pw (JVal.num 3) (JVal.num 4)).1 = JVal.num 99 ∧
    JVal.num 7 ≠ JVal.num 99 :=
  ⟨rfl, rfl, rfl, rfl, rfl, rfl, rfl, by decide⟩

/-- C3 (amended): in an ocean response with a non-empty time axis where
the primary read yields exactly one non-null value among speed and
direction and u/v are present and non-null at the selected index, the
already-present value is kept unchanged and the still-missing field is
filled from the vector-to-polar conversion — provided, in the
missing-speed case, that the legacy `"current"` alias key is absent
(otherwise the alias, not the converter, supplies the speed). -/
theorem C3_fallback_no_clobber :
    (∀ (P : Prims) (pay : Payload) (req0 : Option String) (i : Nat) (s u v : JVal),
      pay.forecast.time = [] → pay.marine.time = [] → pay.ocean.time ≠ [] →
      i = pick_index P.isoparse pay.ocean.time (orStr req0 pay.requested_iso) →
      readField pay.ocean.vars "current_speed" i = Except.ok s → s ≠ JVal.null →
      readField pay.ocean.vars "current_direction" i = Except.ok JVal.null →
      readField pay.ocean.vars "current_u" i = Except.ok u → u ≠ JVal.null →
      readField pay.ocean.vars "current_v" i = Except.ok v → v ≠ JVal.null →
      ∃ r, extract_values P pay req0 = Except.ok r ∧
        r.currentSpeed = s ∧ r.currentDirection = (uv_to_speed_dir P u v).2) ∧
    (∀ (P : Prims) (pay : Payload) (req0 : Option String) (i : Nat) (d u v : JVal),
      pay.forecast.time = [] → pay.marine.time = [] → pay.ocean.time ≠ [] →
      i = pick_index P.isoparse pay.ocean.time (orStr req0 pay.requested_iso) →
      readField pay.ocean.vars "current_speed" i = Except.ok JVal.null →
      readField pay.ocean.vars "current_direction" i = Except.ok d → d ≠ JVal.null →
      lookupVar pay.ocean.vars "current" = none →
      readField pay.ocean.vars "current_u" i = Except.ok u → u ≠ JVal.null →
      readField pay.ocean.vars "current_v" i = Except.ok v → v ≠ JVal.null →
      ∃ r, extract_values P pay req0 = Except.ok r ∧
        r.currentSpeed = (uv_to_speed_dir P u v).1 ∧ r.currentDirection = d) := by
  constructor
  · intro P pay req0 i s u v hf hm hoc hi hs hsne hd hu hune hv hvne
    subst hi
    have hof : oceanFields P pay.ocean.vars
        (pick_index P.isoparse pay.ocean.time (orStr req0 pay.requested_iso)) =
        Except.ok (s, (uv_to_speed_dir P u v).2) := by
      simp [oceanFields, hs, hd, hu, hv, currentAlias, hsne, hune, hvne]
    obtain ⟨t, hsel, hob⟩ := oceanBlock_fields P pay.ocean
      (orStr req0 pay.requested_iso) none (s, (uv_to_speed_dir P u v).2) hoc hof
    refine ⟨⟨pyOrVal none t, JVal.null, JVal.null, JVal.null, JVal.null, JVal.null,
      JVal.null, JVal.null, JVal.null, s, (uv_to_speed_dir P u v).2⟩, ?_, rfl, rfl⟩
    rw [extract_eq,
      windBlock_empty P pay.forecast (orStr req0 pay.requested_iso) none hf]
    simp only [ok_bind]
    rw [marineBlock_empty P pay.marine (orStr req0 pay.requested_iso) none hm]
    simp only [ok_bind]
    rw [hob]
    simp only [ok_bind]
  · intro P pay req0 i d u v hf hm hoc hi hs hd hdne halias hu hune hv hvne
    subst hi
    have hof : oceanFields P pay.ocean.vars
        (pick_index P.isoparse pay.ocean.time (orStr req0 pay.requested_iso)) =
        Except.ok ((uv_to_speed_dir P u v).1, d) := by
      simp [oceanFields, hs, hd, hu, hv, currentAlias, halias, hdne, hune, hvne]
    obtain ⟨t, hsel, hob⟩ := oceanBlock_fields P pay.ocean
      (orStr req0 pay.requested_iso) none ((uv_to_speed_dir P u v).1, d) hoc hof
    refine ⟨⟨pyOrVal none t, JVal.null, JVal.null, JVal.null, JVal.null, JVal.null,
      JVal.null, JVal.null, JVal.null, (uv_to_speed_dir P u v).1, d⟩, ?_, rfl, rfl⟩
    rw [extract_eq,
      windBlock_empty P pay.forecast (orStr req0 pay.requested_iso) none hf]
    simp only [ok_bind]
    rw [marineBlock_empty P pay.marine (orStr req0 pay.requested_iso) none hm]
    simp only [ok_bind]
    rw [hob]
    simp only [ok_bind]

theorem C3_witness :
    (∃ r, extract_values Pw paySpeedKept none = Except.ok r ∧
      r.currentSpeed = JVal.num 2 ∧
      r.currentDirection = (uv_to_speed_dir Pw (JVal.num 3) (JVal.num 4)).2) ∧
    (∃ r, extract_values Pw payDirKept none = Except.ok r ∧
      r.currentSpeed = (uv_to_speed_dir Pw (JVal.num 3) (JVal.num 4)).1 ∧
      r.currentDirection = JVal.num 180) :=
  ⟨C3_fallback_no_clobber.1 Pw paySpeedKept none 0 (JVal.num 2) (JVal.num 3)
      (JVal.num 4) rfl rfl (by decide) rfl rfl (by decide) rfl rfl (by decide)
      rfl (by decide),
   C3_fallback_no_clobber.2 Pw payDirKept none 0 (JVal.num 180) (JVal.num 3)
      (JVal.num 4) rfl rfl (by decide) rfl rfl rfl (by decide) rfl rfl (by decide)
      rfl (by decide)⟩

/-- C4 counterexample: the wind source has a non-empty time axis whose
selected entry is the empty string (a non-null value), yet the resolved
`iso_time` comes from the wave source: Python truthiness passes over the
empty string, refuting the claim as stated. -/
theorem C4_counterexample :
    Except.map Record.iso_time (extract_values Pw payEmptyStringTime none) =
      Except.ok (some "T1") ∧
    payEmptyStringTime.forecast.time ≠ [] ∧
    selTime Pw payEmptyStringTime.forecast
      (orStr none payEmptyStringTime.requested_iso) = some "" ∧
    (some "T1" : Option String) ≠ some "" :=
  ⟨rfl, by decide, rfl, by decide⟩

/-- C4 (amended): for every payload on which `extract_values` returns a
record and whose per-source selected time entries are not the empty
string, the resolved `iso_time` is the first non-null selected entry in
the fixed priority order wind, wave, current, and null when no source has
a time axis.  (A selected entry equal to the empty string is falsy in
Python and is passed over or overwritten.) -/
theorem C4_iso_time_priority (P : Prims) (pay : Payload) (req0 : Option String)
    (r : Record) (heq : extract_values P pay req0 = Except.ok r)
    (hw : selTime P pay.forecast (orStr req0 pay.requested_iso) ≠ some "")
    (hm : selTime P pay.marine (orStr req0 pay.requested_iso) ≠ some "")
    (hc : selTime P pay.ocean (orStr req0 pay.requested_iso) ≠ some "") :
    r.iso_time =
      (selTime P pay.forecast (orStr req0 pay.requested_iso) <|>
        (selTime P pay.marine (orStr req0 pay.requested_iso) <|>
          selTime P pay.ocean (orStr req0 pay.requested_iso))) := by
  set req := orStr req0 pay.requested_iso with hreqdef
  rcases extract_ok_inv heq with ⟨w, m, oc, hwb, hmb, hob, hr⟩
  subst hr
  show oc.1 = _
  have HW : (w.1 = none ∧ selTime P pay.forecast req = none) ∨
      (∃ tw, tw ≠ "" ∧ w.1 = some tw ∧ selTime P pay.forecast req = some tw) := by
    by_cases hfe : pay.forecast.time = []
    · left
      refine ⟨?_, selTime_empty P pay.forecast req hfe⟩
      rw [windBlock_empty P pay.forecast req none hfe] at hwb
      injection hwb with h2
      rw [← h2]
    · right
      obtain ⟨tw, hselW, hw1⟩ := windBlock_ok_inv P pay.forecast req none w hfe hwb
      refine ⟨tw, ?_, ?_, hselW⟩
      · intro hcon
        apply hw
        rw [hselW, hcon]
      · rw [hw1]
        rfl
  have HM : (m.1 = w.1 ∧ selTime P pay.marine req = none) ∨
      (∃ tm, tm ≠ "" ∧ m.1 = pyOrVal w.1 tm ∧ selTime P pay.marine req = some tm) := by
    by_cases hme : pay.marine.time = []
    · left
      refine ⟨?_, selTime_empty P pay.marine req hme⟩
      rw [marineBlock_empty P pay.marine req w.1 hme] at hmb
      injection hmb with h2
      rw [← h2]
    · right
      obtain ⟨tm, hselM, hmeq⟩ := marineBlock_ok P pay.marine req w.1 hme
      refine ⟨tm, ?_, ?_, hselM⟩
      · intro hcon
        apply hm
        rw [hselM, hcon]
      · rw [hmeq] at hmb
        injection hmb with h2
        rw [← h2]
  have HC : (oc.1 = m.1 ∧ selTime P pay.ocean req = none) ∨
      (∃ tc, tc ≠ "" ∧ oc.1 = pyOrVal m.1 tc ∧ selTime P pay.ocean req = some tc) := by
    by_cases hoe : pay.ocean.time = []
    · left
      refine ⟨?_, selTime_empty P pay.ocean req hoe⟩
      rw [oceanBlock_empty P pay.ocean req m.1 hoe] at hob
      injection hob with h2
      rw [← h2]
    · right
      obtain ⟨tc, hselC, hoc1⟩ := oceanBlock_ok_inv P pay.ocean req m.1 oc hoe hob
      exact ⟨tc, fun hcon => hc (by rw [hselC, hcon]), hoc1, hselC⟩
  rcases HW with ⟨hw1, hselW⟩ | ⟨tw, htw, hw1, hselW⟩ <;>
    rcases HM with ⟨hm1, hselM⟩ | ⟨tm, htm, hm1, hselM⟩ <;>
      rcases HC with ⟨hc1, hselC⟩ | ⟨tc, htc, hc1, hselC⟩ <;>
        simp_all [pyOrVal]

theorem C4_witness :
    recWaveTime.iso_time =
      (selTime Pw payWaveTime.forecast (orStr none payWaveTime.requested_iso) <|>
        (selTime Pw payWaveTime.marine (orStr none payWaveTime.requested_iso) <|>
          selTime Pw payWaveTime.ocean (orStr none payWaveTime.requested_iso))) :=
  C4_iso_time_priority Pw payWaveTime none recWaveTime rfl (by decide) (by decide)
    (by decide)

end OpenMeteo
